import Mathlib

/-!
Verification of the OpenClaw Sentinel core against its specification.

The development shallowly embeds the policy decision engine, the per-host
circuit breaker, the quarantine registry, the confirmation-token handling,
the hash-chained audit log and the relevant part of the interceptor.
SQLite tables become Lean lists of rows; every database mutation becomes an
explicit state transformer.  External primitives that the code delegates to
the host platform (the SHA-256 digest, the JS RegExp engine, the wall-clock
schedule test, the regex-based redaction) are parameters of the embedding:
all theorems hold for every instantiation of those parameters.
-/

namespace Sentinel

/-! ### JS substring containment (String.prototype.includes) -/

/-- True when the first list is a leading segment of the second. -/
def takeMatches : List Char → List Char → Bool
  | [], _ => true
  | _ :: _, [] => false
  | a :: as, b :: bs => a == b && takeMatches as bs

/-- True when the second list occurs contiguously inside the first. -/
def hasSub : List Char → List Char → Bool
  | [], sub => sub.isEmpty
  | c :: rest, sub => takeMatches sub (c :: rest) || hasSub rest sub

/-- Model of the JS expression s.includes(sub). -/
def strIncludes (s sub : String) : Bool := hasSub s.data sub.data

theorem hasSub_append_right (l₁ l₂ sub : List Char) (h : hasSub l₂ sub = true) :
    hasSub (l₁ ++ l₂) sub = true := by
  induction l₁ with
  | nil => simpa using h
  | cons c rest ih =>
      simp only [List.cons_append, hasSub, Bool.or_eq_true]
      exact Or.inr ih

theorem strIncludes_append_right (s t sub : String) (h : strIncludes t sub = true) :
    strIncludes (s ++ t) sub = true := by
  unfold strIncludes at *
  rw [show (s ++ t).data = s.data ++ t.data by simp]
  exact hasSub_append_right _ _ _ h

/-! ### Dynamic argument values (the untyped JS object tree) -/

/-- Recursive tagged value for the dynamic shape of request arguments. -/
inductive Json where
  | null
  | bool (b : Bool)
  | num (n : Int)
  | str (s : String)
  | arr (elems : List Json)
  | obj (fields : List (String × Json))

/-- JSON string escaping as performed by JSON.stringify. -/
def escapeChar (c : Char) : String :=
  if c = '"' then "\\\""
  else if c = '\\' then "\\\\"
  else if c = '\n' then "\\n"
  else if c = '\t' then "\\t"
  else if c = '\r' then "\\r"
  else String.singleton c

def quoteString (s : String) : String :=
  "\"" ++ s.data.foldl (fun acc c => acc ++ escapeChar c) "" ++ "\""

mutual
/-- Model of JSON.stringify without a replacer: object keys appear in
insertion order, no whitespace. -/
def jsonStringify : Json → String
  | Json.null => "null"
  | Json.bool b => cond b "true" "false"
  | Json.num n => toString n
  | Json.str s => quoteString s
  | Json.arr es => "[" ++ stringifyElems es ++ "]"
  | Json.obj fs => "\x7b" ++ stringifyFields fs ++ "\x7d"

def stringifyElems : List Json → String
  | [] => ""
  | [e] => jsonStringify e
  | e :: e2 :: rest => jsonStringify e ++ "," ++ stringifyElems (e2 :: rest)

def stringifyFields : List (String × Json) → String
  | [] => ""
  | [(k, v)] => quoteString k ++ ":" ++ jsonStringify v
  | (k, v) :: f2 :: rest =>
      quoteString k ++ ":" ++ jsonStringify v ++ "," ++ stringifyFields (f2 :: rest)
end

/-- With an array replacer, each object at every depth keeps only the
properties whose names occur in the property list, in property-list
order, taking the first field of a duplicated name. -/
def reorderFields (keys : List String) (fs : List (String × Json)) :
    List (String × Json) :=
  keys.filterMap (fun k => (fs.find? (fun p => p.1 == k)).map (fun p => (k, p.2)))

mutual
/-- Model of the ECMA-262 array-replacer semantics of JSON.stringify:
every object at every depth keeps only the properties whose names occur
in the property list, serialized in list order; arrays are untouched.
Pruning first and then serializing plainly is equivalent to the
single-pass serialization. -/
def pruneJ (keys : List String) : Json → Json
  | Json.obj fs => Json.obj (reorderFields keys (pruneFields keys fs))
  | Json.arr es => Json.arr (pruneElems keys es)
  | Json.null => Json.null
  | Json.bool b => Json.bool b
  | Json.num n => Json.num n
  | Json.str s => Json.str s

def pruneFields (keys : List String) : List (String × Json) → List (String × Json)
  | [] => []
  | (k, v) :: rest => (k, pruneJ keys v) :: pruneFields keys rest

def pruneElems (keys : List String) : List Json → List Json
  | [] => []
  | e :: rest => pruneJ keys e :: pruneElems keys rest
end

/-- String ordering used by the default JS Array.prototype.sort. -/
def strLe (a b : String) : Prop := a ≤ b

instance : DecidableRel strLe := fun a b =>
  inferInstanceAs (Decidable (a ≤ b))

/-- Ordering of object fields by key. -/
def fieldLe (a b : String × Json) : Prop := strLe a.1 b.1

instance : DecidableRel fieldLe := fun a b =>
  inferInstanceAs (Decidable (a.1 ≤ b.1))

/-- The exact string hashed by hashArguments in the anomaly detector:
JSON.stringify(args, Object.keys(args).sort()), i.e. the array-replacer
serialization whose property list is the sorted list of top-level keys. -/
def hashArgumentsInput (args : List (String × Json)) : String :=
  jsonStringify (pruneJ (List.insertionSort strLe (args.map (·.1))) (Json.obj args))

mutual
/-- Recursively sort object keys: two argument trees are equal up to key
order exactly when their canonical forms coincide. -/
def canonJson : Json → Json
  | Json.obj fs => Json.obj (List.insertionSort fieldLe (canonFields fs))
  | Json.arr es => Json.arr (canonElems es)
  | Json.null => Json.null
  | Json.bool b => Json.bool b
  | Json.num n => Json.num n
  | Json.str s => Json.str s

def canonFields : List (String × Json) → List (String × Json)
  | [] => []
  | (k, v) :: rest => (k, canonJson v) :: canonFields rest

def canonElems : List Json → List Json
  | [] => []
  | e :: rest => canonJson e :: canonElems rest
end

/-- Equality of argument trees up to object key order at every level. -/
def keyOrderEquiv (a b : Json) : Prop := canonJson a = canonJson b

/-! ### Data model rows -/

structure RiskFactor where
  factor : String
  score : ℚ
  details : String
deriving DecidableEq

structure RateLimit where
  maxOperations : Int
  windowSeconds : Int
  refillRate : ℚ
deriving DecidableEq

structure Schedule where
  daysOfWeek : Option (List Int)
  startHour : Option Int
  endHour : Option Int
  timezone : Option String
deriving DecidableEq

structure SentinelRule where
  id : String
  name : String
  priority : Int
  action : String
  enabled : Bool
  toolPattern : Option String
  hostPattern : Option String
  agentPattern : Option String
  argumentPattern : Option String
  rateLimit : Option RateLimit
  schedule : Option Schedule
  createdAt : Int
  updatedAt : Int
deriving DecidableEq

structure QuarantineEntry where
  scope : String
  target : String
  reason : String
  createdAt : Int
  expiresAt : Option Int
  createdBy : String
deriving DecidableEq

structure CircuitRow where
  host : String
  state : String
  failureCount : Int
  lastFailure : Option Int
  lastSuccess : Option Int
  openedAt : Option Int
  halfOpenAt : Option Int
deriving DecidableEq

structure TokenRow where
  token : String
  tool : String
  host : String
  agent : String
  argumentsJson : String
  createdAt : Int
  expiresAt : Int
  used : Bool
deriving DecidableEq

structure BucketRow where
  ruleId : String
  tool : String
  host : String
  agent : String
  tokens : ℚ
  lastRefill : Int
  createdAt : Int
deriving DecidableEq

structure AuditRow where
  seq : Nat
  ts : Int
  tool : String
  host : String
  agent : String
  argumentsJson : String
  verdict : String
  action : String
  matchedRuleId : Option String
  riskScore : ℚ
  mode : String
  responseStatus : Option String
  errorMessage : Option String
  hash : String
  previousHash : String
deriving DecidableEq

structure PolicyContext where
  tool : String
  host : String
  agent : String
  arguments : List (String × Json)
  timestamp : Int
  confirmationToken : Option String

structure PolicyVerdict where
  allowed : Bool
  action : String
  reason : String
  matchedRuleId : Option String
  matchedRuleName : Option String
  riskScore : ℚ
  riskFactors : List RiskFactor
  requiresConfirmation : Bool

/-- The whole persistent store: one list of rows per SQLite table. -/
structure SentinelState where
  rules : List SentinelRule
  quarantine : List QuarantineEntry
  circuit : List CircuitRow
  tokens : List TokenRow
  buckets : List BucketRow
  audit : List AuditRow

/-- External primitives the code calls out to: the compiled glob regex
test, the argument-pattern RegExp test, the wall-clock schedule check and
the regex-based redaction serializer.  All results are universally
quantified over these. -/
structure Oracles where
  globMatch : String → String → Bool
  regexMatch : String → String → Bool
  scheduleOk : Schedule → Bool
  redactSerialize : List (String × Json) → String

/-! ### Circuit breaker (per host) -/

def FAILURE_THRESHOLD : Int := 2
def DEFAULT_COOLDOWN_MS : Int := 120000

def findBreaker (circuit : List CircuitRow) (host : String) : Option CircuitRow :=
  circuit.find? (fun r => r.host == host)

/-- recordSuccess: upsert to closed; the conflict clause resets state,
failure_count, last_success, opened_at and half_open_at but keeps
last_failure. -/
def recordSuccess (circuit : List CircuitRow) (host : String) (now : Int) :
    List CircuitRow :=
  if circuit.any (fun r => r.host == host) then
    circuit.map (fun r => if r.host == host then
      { r with state := "closed", failureCount := 0, lastSuccess := some now,
               openedAt := none, halfOpenAt := none } else r)
  else
    circuit ++ [{ host := host, state := "closed", failureCount := 0,
                  lastFailure := none, lastSuccess := some now,
                  openedAt := none, halfOpenAt := none }]

/-- recordFailure: increment the counter, open at the threshold; the
conflict clause updates state, failure_count, last_failure and opened_at
but keeps last_success and half_open_at. -/
def recordFailure (circuit : List CircuitRow) (host : String) (now : Int) :
    List CircuitRow :=
  let existing := findBreaker circuit host
  let newCount := (match existing with | some b => b.failureCount | none => 0) + 1
  let newState := if FAILURE_THRESHOLD ≤ newCount then "open" else "closed"
  let newOpenedAt : Option Int :=
    if FAILURE_THRESHOLD ≤ newCount then some now
    else match existing with | some b => b.openedAt | none => none
  match existing with
  | some _ => circuit.map (fun r => if r.host == host then
      { r with state := newState, failureCount := newCount,
               lastFailure := some now, openedAt := newOpenedAt } else r)
  | none => circuit ++ [{ host := host, state := newState, failureCount := newCount,
                          lastFailure := some now, lastSuccess := none,
                          openedAt := newOpenedAt, halfOpenAt := none }]

/-- getState: closed below the threshold; an elapsed cooldown turns an
open circuit half-open and persists the transition; otherwise the stored
state is returned.  A zero opened_at is falsy in JS and is skipped. -/
def getState (circuit : List CircuitRow) (host : String) (now cooldownMs : Int) :
    String × List CircuitRow :=
  match findBreaker circuit host with
  | none => ("closed", circuit)
  | some b =>
      if b.failureCount < FAILURE_THRESHOLD then ("closed", circuit)
      else
        match b.openedAt with
        | some t =>
            if t ≠ 0 ∧ cooldownMs ≤ now - t then
              ("half-open", circuit.map (fun r => if r.host == host then
                { r with state := "half-open", halfOpenAt := some now } else r))
            else (b.state, circuit)
        | none => (b.state, circuit)

def isHealthy (circuit : List CircuitRow) (host : String) (now cooldownMs : Int) :
    Bool × List CircuitRow :=
  let r := getState circuit host now cooldownMs
  (r.1 != "open", r.2)

/-- retryAfterSeconds: remaining cooldown in whole seconds, rounded up,
or zero.  Math.ceil of an exact rational is (r + 999) / 1000 for the
positive integers reaching it. -/
def retryAfterSeconds (circuit : List CircuitRow) (host : String)
    (now cooldownMs : Int) : Int :=
  match findBreaker circuit host with
  | none => 0
  | some b =>
      if b.failureCount < FAILURE_THRESHOLD then 0
      else
        match b.openedAt with
        | none => 0
        | some t =>
            if t = 0 then 0
            else
              let remaining := cooldownMs - (now - t)
              if 0 < remaining then (remaining + 999) / 1000 else 0

/-- The policy engine reader of the circuit table (part of the policy
engine source): open within cooldown blocks; an elapsed cooldown persists
half-open and lets the request through.  A NULL opened_at coerces to 0 in
the JS subtraction. -/
def circuitOpenCheck (circuit : List CircuitRow) (host : String) (now : Int) :
    Bool × List CircuitRow :=
  match circuit.find? (fun r => r.host == host) with
  | none => (false, circuit)
  | some row =>
      if row.state == "open" then
        if now - (row.openedAt.getD 0) < 120000 then (true, circuit)
        else (false, circuit.map (fun r => if r.host == host then
          { r with state := "half-open", halfOpenAt := some now } else r))
      else (false, circuit)

/-! ### Quarantine registry -/

/-- The cleanup DELETE that starts every quarantine lookup: rows with a
non-null expiry strictly before now are removed. -/
def cleanupQuarantine (q : List QuarantineEntry) (now : Int) : List QuarantineEntry :=
  q.filter (fun e => !(match e.expiresAt with
    | some x => decide (x < now)
    | none => false))

/-- isQuarantined: sweep expired rows, then exact, case-sensitive lookup. -/
def quarantineCheck (q : List QuarantineEntry) (scope target : String) (now : Int) :
    Bool × List QuarantineEntry :=
  let q2 := cleanupQuarantine q now
  (q2.any (fun e => e.scope == scope && e.target == target), q2)

/-- An entry of the given scope and target that the cleanup sweep would
not delete: this is exactly what makes quarantineCheck answer true. -/
def quarantineActive (q : List QuarantineEntry) (scope target : String)
    (now : Int) : Prop :=
  ∃ e ∈ q, e.scope = scope ∧ e.target = target ∧
    ∀ x, e.expiresAt = some x → ¬ x < now

/-! ### Rules and rule matching -/

/-- ORDER BY priority ASC, created_at ASC. -/
def ruleOrder (a b : SentinelRule) : Prop :=
  a.priority < b.priority ∨ (a.priority = b.priority ∧ a.createdAt ≤ b.createdAt)

instance : DecidableRel ruleOrder := fun a b =>
  inferInstanceAs (Decidable (a.priority < b.priority ∨
    (a.priority = b.priority ∧ a.createdAt ≤ b.createdAt)))

/-- SELECT * FROM rules WHERE enabled = 1 ORDER BY priority ASC, created_at ASC. -/
def sortedEnabledRules (st : SentinelState) : List SentinelRule :=
  List.insertionSort ruleOrder (st.rules.filter (fun r => r.enabled))

/-- JS truthiness of an optional string field: present and non-empty. -/
def patternGiven : Option String → Bool
  | some p => p != ""
  | none => false

/-- ruleMatches: each given predicate must pass; the argument pattern is
applied to the plain JSON.stringify of the arguments (insertion order,
unsorted); the schedule check consults the wall clock. -/
def ruleMatches (o : Oracles) (rule : SentinelRule) (ctx : PolicyContext) : Bool :=
  (!(patternGiven rule.toolPattern) || o.globMatch (rule.toolPattern.getD "") ctx.tool) &&
  (!(patternGiven rule.hostPattern) || o.globMatch (rule.hostPattern.getD "") ctx.host) &&
  (!(patternGiven rule.agentPattern) || o.globMatch (rule.agentPattern.getD "") ctx.agent) &&
  (!(patternGiven rule.argumentPattern) ||
      o.regexMatch (rule.argumentPattern.getD "")
        (jsonStringify (Json.obj ctx.arguments))) &&
  (match rule.schedule with | some s => o.scheduleOk s | none => true)

/-- Weight: 60 percent anomaly score, 40 percent average of the other
risk factors; pure anomaly when there are none. -/
def calculateCompositeRisk (riskFactors : List RiskFactor) (anomalyScore : ℚ) : ℚ :=
  if riskFactors.isEmpty then anomalyScore
  else
    let otherFactorsAvg := (riskFactors.map (·.score)).sum / (riskFactors.length : ℚ)
    min 100 (anomalyScore * (6 / 10) + otherFactorsAvg * (4 / 10))

/-! ### Confirmation tokens as the policy engine consults them -/

/-- SELECT used FROM confirmation_tokens WHERE token = ? AND used = 0:
the engine only filters on the token value and the used flag. -/
def findUnusedToken (tokens : List TokenRow) (tok : String) : Option TokenRow :=
  tokens.find? (fun r => r.token == tok && r.used == false)

/-- UPDATE confirmation_tokens SET used = 1 WHERE token = ?. -/
def consumeToken (tokens : List TokenRow) (tok : String) : List TokenRow :=
  tokens.map (fun r => if r.token == tok then { r with used := true } else r)

/-- JS truthiness of context.confirmationToken. -/
def hasConfToken (ctx : PolicyContext) : Bool :=
  match ctx.confirmationToken with
  | some t => t != ""
  | none => false

/-! ### Policy evaluation engine -/

def denyVerdict (reason : String) (riskFactors : List RiskFactor) : PolicyVerdict :=
  { allowed := false, action := "deny", reason := reason,
    matchedRuleId := none, matchedRuleName := none,
    riskScore := 100, riskFactors := riskFactors, requiresConfirmation := false }

/-- Step 4 loop body: priority-ordered first match wins; a matched ask
rule with a presented token consults only token = ? AND used = 0;
an unknown action string falls through to the next rule. -/
def applyRules (o : Oracles) (st : SentinelState) (ctx : PolicyContext)
    (anomalyScore : ℚ) (riskFactors : List RiskFactor) :
    List SentinelRule → Option (PolicyVerdict × SentinelState)
  | [] => none
  | rule :: rest =>
      if ruleMatches o rule ctx then
        let compositeRisk := calculateCompositeRisk riskFactors anomalyScore
        let confirmed : Bool :=
          rule.action == "ask" && hasConfToken ctx &&
            (findUnusedToken st.tokens (ctx.confirmationToken.getD "")).isSome
        if confirmed then
          some ({ allowed := true, action := "allow",
                  reason := "Confirmed via token (rule: " ++ rule.name ++ ")",
                  matchedRuleId := some rule.id, matchedRuleName := some rule.name,
                  riskScore := compositeRisk, riskFactors := riskFactors,
                  requiresConfirmation := false },
                { st with tokens := consumeToken st.tokens (ctx.confirmationToken.getD "") })
        else if rule.action == "allow" then
          some ({ allowed := true, action := "allow",
                  reason := "Allowed by rule: " ++ rule.name,
                  matchedRuleId := some rule.id, matchedRuleName := some rule.name,
                  riskScore := compositeRisk, riskFactors := riskFactors,
                  requiresConfirmation := false }, st)
        else if rule.action == "deny" then
          some ({ allowed := false, action := "deny",
                  reason := "Denied by rule: " ++ rule.name,
                  matchedRuleId := some rule.id, matchedRuleName := some rule.name,
                  riskScore := compositeRisk, riskFactors := riskFactors,
                  requiresConfirmation := false }, st)
        else if rule.action == "ask" then
          some ({ allowed := false, action := "ask",
                  reason := "Confirmation required (rule: " ++ rule.name ++ ")",
                  matchedRuleId := some rule.id, matchedRuleName := some rule.name,
                  riskScore := compositeRisk, riskFactors := riskFactors,
                  requiresConfirmation := true }, st)
        else if rule.action == "log-only" then
          some ({ allowed := true, action := "log-only",
                  reason := "Logged by rule: " ++ rule.name,
                  matchedRuleId := some rule.id, matchedRuleName := some rule.name,
                  riskScore := compositeRisk, riskFactors := riskFactors,
                  requiresConfirmation := false }, st)
        else applyRules o st ctx anomalyScore riskFactors rest
      else applyRules o st ctx anomalyScore riskFactors rest

/-- evaluatePolicy: circuit gate, quarantine gate (host, tool, agent),
lockdown gate, rule matching, mode default.  The mode is the raw string
read from the config table. -/
def evaluatePolicy (o : Oracles) (st : SentinelState) (ctx : PolicyContext)
    (mode : String) (anomalyScore : ℚ) (additionalRiskFactors : List RiskFactor)
    (now : Int) : PolicyVerdict × SentinelState :=
  let riskFactors := additionalRiskFactors
  let c := circuitOpenCheck st.circuit ctx.host now
  if c.1 then
    (denyVerdict ("Host " ++ ctx.host ++ " circuit breaker is open (unavailable)")
      (riskFactors ++
        [⟨"circuit_breaker", 100, "Circuit breaker open for host " ++ ctx.host⟩]),
     { st with circuit := c.2 })
  else
    let st1 : SentinelState := { st with circuit := c.2 }
    let qh := quarantineCheck st1.quarantine "host" ctx.host now
    if qh.1 then
      (denyVerdict ("Host " ++ ctx.host ++ " is quarantined")
        (riskFactors ++
          [⟨"quarantine", 100, "Host " ++ ctx.host ++ " is quarantined"⟩]),
       { st1 with quarantine := qh.2 })
    else
      let st2 : SentinelState := { st1 with quarantine := qh.2 }
      let qt := quarantineCheck st2.quarantine "tool" ctx.tool now
      if qt.1 then
        (denyVerdict ("Tool " ++ ctx.tool ++ " is quarantined")
          (riskFactors ++
            [⟨"quarantine", 100, "Tool " ++ ctx.tool ++ " is quarantined"⟩]),
         { st2 with quarantine := qt.2 })
      else
        let st3 : SentinelState := { st2 with quarantine := qt.2 }
        let qa := quarantineCheck st3.quarantine "agent" ctx.agent now
        if qa.1 then
          (denyVerdict ("Agent " ++ ctx.agent ++ " is quarantined")
            (riskFactors ++
              [⟨"quarantine", 100, "Agent " ++ ctx.agent ++ " is quarantined"⟩]),
           { st3 with quarantine := qa.2 })
        else
          let st4 : SentinelState := { st3 with quarantine := qa.2 }
          if mode == "lockdown" then
            if !(strIncludes ctx.tool "health" || strIncludes ctx.tool "status") then
              (denyVerdict "System in lockdown mode"
                (riskFactors ++
                  [⟨"lockdown_mode", 100,
                    "System in lockdown mode, only health checks allowed"⟩]),
               st4)
            else
              ({ allowed := true, action := "allow",
                 reason := "Health check allowed in lockdown mode",
                 matchedRuleId := none, matchedRuleName := none,
                 riskScore := 0, riskFactors := riskFactors,
                 requiresConfirmation := false }, st4)
          else
            match applyRules o st4 ctx anomalyScore riskFactors
                (sortedEnabledRules st4) with
            | some res => res
            | none =>
                let compositeRisk := calculateCompositeRisk riskFactors anomalyScore
                if mode == "silent-allow" then
                  ({ allowed := true, action := "allow",
                     reason := "No matching rule, silent-allow mode",
                     matchedRuleId := none, matchedRuleName := none,
                     riskScore := compositeRisk, riskFactors := riskFactors,
                     requiresConfirmation := false }, st4)
                else if mode == "alert" then
                  ({ allowed := false, action := "ask",
                     reason := "No matching rule, confirmation required in alert mode",
                     matchedRuleId := none, matchedRuleName := none,
                     riskScore := compositeRisk, riskFactors := riskFactors,
                     requiresConfirmation := true }, st4)
                else if mode == "silent-deny" then
                  ({ allowed := false, action := "deny",
                     reason := "No matching rule, deny-by-default in silent-deny mode",
                     matchedRuleId := none, matchedRuleName := none,
                     riskScore := compositeRisk, riskFactors := riskFactors,
                     requiresConfirmation := false }, st4)
                else
                  ({ allowed := false, action := "deny",
                     reason := "No matching rule, default deny",
                     matchedRuleId := none, matchedRuleName := none,
                     riskScore := compositeRisk, riskFactors := riskFactors,
                     requiresConfirmation := false }, st4)

/-! ### Audit log (hash chain) -/

def GENESIS_HASH : String := "GENESIS"

/-- The exact string hashed for an entry:
seq, timestamp, tool, host, agent, verdict, previous hash, joined by the
single byte 0x7c, integers in decimal, no whitespace. -/
def hashInput (seq : Nat) (ts : Int) (tool host agent verdict previousHash : String) :
    String :=
  toString seq ++ "|" ++ toString ts ++ "|" ++ tool ++ "|" ++ host ++ "|" ++
    agent ++ "|" ++ verdict ++ "|" ++ previousHash

/-- SELECT MAX(sequence_number): 0 on an empty table. -/
def getLastSequenceNumber (log : List AuditRow) : Nat :=
  log.foldl (fun m e => max m e.seq) 0

/-- SELECT hash ORDER BY sequence_number DESC LIMIT 1. -/
def lastBySeq (log : List AuditRow) : Option AuditRow :=
  log.foldl (fun acc e =>
    match acc with
    | none => some e
    | some b => if b.seq < e.seq then some e else some b) none

def getLastHash (log : List AuditRow) : String :=
  match lastBySeq log with
  | some e => e.hash
  | none => GENESIS_HASH

/-- verdict string rule: asked if confirmation is required, else allowed
if allowed, else denied. -/
def verdictString (v : PolicyVerdict) : String :=
  if v.requiresConfirmation then "asked" else if v.allowed then "allowed" else "denied"

structure AuditInput where
  ctx : PolicyContext
  verdict : PolicyVerdict
  mode : String
  now : Int

/-- createAuditEntry: next sequence number, previous hash, verdict
string, SHA-256 of the hash input, insert with NULL response status.
The digest function sha is a parameter of the embedding. -/
def createAuditEntry (sha : String → String) (o : Oracles)
    (log : List AuditRow) (inp : AuditInput) : AuditRow × List AuditRow :=
  let sequenceNumber := getLastSequenceNumber log + 1
  let previousHash := getLastHash log
  let verdictStr := verdictString inp.verdict
  let h := sha (hashInput sequenceNumber inp.now inp.ctx.tool inp.ctx.host
    inp.ctx.agent verdictStr previousHash)
  let entry : AuditRow :=
    { seq := sequenceNumber, ts := inp.now, tool := inp.ctx.tool,
      host := inp.ctx.host, agent := inp.ctx.agent,
      argumentsJson := o.redactSerialize inp.ctx.arguments,
      verdict := verdictStr, action := inp.verdict.action,
      matchedRuleId := inp.verdict.matchedRuleId,
      riskScore := inp.verdict.riskScore, mode := inp.mode,
      responseStatus := none, errorMessage := none,
      hash := h, previousHash := previousHash }
  (entry, log ++ [entry])

/-- An audit log produced by a sequence of createAuditEntry calls on an
initially empty table. -/
def runAudit (sha : String → String) (o : Oracles) (inputs : List AuditInput) :
    List AuditRow :=
  inputs.foldl (fun log inp => (createAuditEntry sha o log inp).2) []

structure BrokenChain where
  sequenceNumber : Nat
  expectedHash : String
  actualHash : String
deriving DecidableEq

structure AuditVerificationResult where
  valid : Bool
  totalEntries : Nat
  brokenChains : List BrokenChain
deriving DecidableEq

/-- The verification walk: the expected previous hash of the first entry
is GENESIS and of every later entry the hash of the entry before it in
sequence order; each stored hash is also recomputed. -/
def verifyGo (sha : String → String) (prevHash : String) :
    List AuditRow → List BrokenChain
  | [] => []
  | e :: rest =>
      (if e.previousHash != prevHash then
        [{ sequenceNumber := e.seq, expectedHash := prevHash,
           actualHash := e.previousHash }] else []) ++
      (let computed := sha (hashInput e.seq e.ts e.tool e.host e.agent
          e.verdict e.previousHash)
       if computed != e.hash then
        [{ sequenceNumber := e.seq, expectedHash := computed,
           actualHash := e.hash }] else []) ++
      verifyGo sha e.hash rest

def auditSeqLe (a b : AuditRow) : Prop := a.seq ≤ b.seq

instance : DecidableRel auditSeqLe := fun a b =>
  inferInstanceAs (Decidable (a.seq ≤ b.seq))

/-- verifyAuditChain: walk all entries in sequence order. -/
def verifyAuditChain (sha : String → String) (log : List AuditRow) :
    AuditVerificationResult :=
  let entries := List.insertionSort auditSeqLe log
  let broken := verifyGo sha GENESIS_HASH entries
  { valid := broken.isEmpty, totalEntries := entries.length, brokenChains := broken }

/-! ### Interceptor (the tool-call path of handleAgentRequest) -/

/-- COALESCE(new, old). -/
def coalesce (newVal old : Option String) : Option String :=
  match newVal with
  | some s => some s
  | none => old

/-- updateAuditEntry with COALESCE semantics, keyed here by the unique
sequence number of the freshly inserted row. -/
def updateAuditStatus (log : List AuditRow) (seq : Nat)
    (responseStatus : Option String) (errorMessage : Option String) :
    List AuditRow :=
  log.map (fun e =>
    if e.seq = seq then
      { e with responseStatus := coalesce responseStatus e.responseStatus,
               errorMessage := coalesce errorMessage e.errorMessage }
    else e)

/-- generateConfirmationToken: a fresh random token row bound to the
context, unused, expiring after the configured TTL. -/
def generateConfirmationToken (o : Oracles) (tokens : List TokenRow)
    (ctx : PolicyContext) (freshTok : String) (ttlMs now : Int) :
    List TokenRow :=
  tokens ++ [{ token := freshTok, tool := ctx.tool, host := ctx.host,
               agent := ctx.agent, argumentsJson := o.redactSerialize ctx.arguments,
               createdAt := now, expiresAt := now + ttlMs, used := false }]

/-- The decision-and-side-effect sequence handleAgentRequest runs for a
tool call: evaluate the policy, write the audit entry ahead, then on deny
or ask update the audit status (and on ask mint a confirmation token).
Allowed requests are forwarded; their audit row is completed later. -/
def interceptToolCall (sha : String → String) (o : Oracles) (freshTok : String)
    (ttlMs : Int) (st : SentinelState) (ctx : PolicyContext) (mode : String)
    (now : Int) : PolicyVerdict × SentinelState :=
  let r := evaluatePolicy o st ctx mode 0 [] now
  let verdict := r.1
  let ca := createAuditEntry sha o r.2.audit
    { ctx := ctx, verdict := verdict, mode := mode, now := now }
  let st2 : SentinelState := { r.2 with audit := ca.2 }
  if verdict.action == "deny" then
    let log2 := updateAuditStatus st2.audit ca.1.seq (some "error") (some verdict.reason)
    (verdict, { st2 with audit := log2 })
  else if verdict.action == "ask" then
    let toks := generateConfirmationToken o st2.tokens ctx freshTok ttlMs now
    let log3 := updateAuditStatus st2.audit ca.1.seq (some "error")
      (some ("Confirmation required: " ++ verdict.reason))
    (verdict, { st2 with tokens := toks, audit := log3 })
  else (verdict, st2)

/-! ### Helper lemmas -/

theorem quarantineCheck_true_iff (q : List QuarantineEntry) (scope target : String)
    (now : Int) :
    (quarantineCheck q scope target now).1 = true ↔
      quarantineActive q scope target now := by
  unfold quarantineCheck quarantineActive cleanupQuarantine
  simp only [List.any_eq_true, List.mem_filter, Bool.and_eq_true, beq_iff_eq]
  constructor
  · rintro ⟨e, ⟨he, hkeep⟩, hs, ht⟩
    refine ⟨e, he, hs, ht, ?_⟩
    intro x hx hlt
    rw [hx] at hkeep
    simp at hkeep
    omega
  · rintro ⟨e, he, hs, ht, hexp⟩
    refine ⟨e, ⟨he, ?_⟩, hs, ht⟩
    cases hx : e.expiresAt with
    | none => simp
    | some x =>
        simp only [Bool.not_eq_true']
        simpa using hexp x hx

theorem applyRules_none (o : Oracles) (st : SentinelState) (ctx : PolicyContext)
    (a : ℚ) (rf : List RiskFactor) (l : List SentinelRule)
    (h : ∀ r ∈ l, ruleMatches o r ctx = false) :
    applyRules o st ctx a rf l = none := by
  induction l with
  | nil => rfl
  | cons r rest ih =>
      have hr := h r (List.mem_cons_self r rest)
      have hrest : ∀ x ∈ rest, ruleMatches o x ctx = false := fun x hx =>
        h x (List.mem_cons_of_mem r hx)
      unfold applyRules
      rw [hr]
      simp only [Bool.false_eq_true, if_false]
      exact ih hrest

theorem applyRules_state (o : Oracles) (st : SentinelState) (ctx : PolicyContext)
    (a : ℚ) (rf : List RiskFactor) :
    ∀ l res, applyRules o st ctx a rf l = some res →
      res.2 = st ∨
        res.2 = { st with
          tokens := consumeToken st.tokens (ctx.confirmationToken.getD "") } := by
  intro l
  induction l with
  | nil => intro res h; exact absurd h (by simp [applyRules])
  | cons r rest ih =>
      intro res h
      unfold applyRules at h
      by_cases hm : ruleMatches o r ctx = true
      · rw [hm] at h
        simp only [if_true] at h
        split at h
        · cases h; right; rfl
        · split at h
          · cases h; left; rfl
          · split at h
            · cases h; left; rfl
            · split at h
              · cases h; left; rfl
              · split at h
                · cases h; left; rfl
                · exact ih res h
      · rw [Bool.not_eq_true] at hm
        rw [hm] at h
        simp only [Bool.false_eq_true, if_false] at h
        exact ih res h

theorem mem_sortedEnabledRules (st : SentinelState) (r : SentinelRule) :
    r ∈ sortedEnabledRules st ↔ r ∈ st.rules ∧ r.enabled = true := by
  unfold sortedEnabledRules
  rw [(List.perm_insertionSort ruleOrder _).mem_iff, List.mem_filter]

theorem applyRules_sorted_none (o : Oracles) (ctx : PolicyContext)
    (st' : SentinelState) (a : ℚ) (rf : List RiskFactor)
    (h : ∀ r ∈ st'.rules, r.enabled = true → ruleMatches o r ctx = false) :
    applyRules o st' ctx a rf (sortedEnabledRules st') = none := by
  refine applyRules_none o st' ctx a rf _ (fun r hr => ?_)
  obtain ⟨h1, h2⟩ := (mem_sortedEnabledRules st' r).1 hr
  exact h r h1 h2

/-! ### Shared concrete fixtures -/

/-- Trivial instantiation of the external primitives. -/
def oFalse : Oracles :=
  ⟨fun _ _ => false, fun _ _ => false, fun _ => false, fun _ => "redacted"⟩

/-- An enabled allow-everything rule (no predicates) carrying a rate
limit of 3 tokens refilled at 1 token per second. -/
def allowAllRule : SentinelRule :=
  { id := "r1", name := "allow-all", priority := 0, action := "allow",
    enabled := true, toolPattern := none, hostPattern := none,
    agentPattern := none, argumentPattern := none,
    rateLimit := some ⟨3, 60, 1⟩, schedule := none,
    createdAt := 0, updatedAt := 0 }

def ctxBase : PolicyContext :=
  { tool := "fleet_ssh_exec", host := "h", agent := "a", arguments := [],
    timestamp := 0, confirmationToken := none }

def emptyState : SentinelState :=
  { rules := [], quarantine := [], circuit := [], tokens := [], buckets := [],
    audit := [] }

/-! ### Claim C3 (corrected) -/

/-- Claim C3 counterexample: with the mode string bypass, which is none
of the four enumerated modes, and an enabled allow-everything rule, the
engine still returns an allow verdict, so mode validation does not make
every verdict a non-allow one. -/
theorem claimC3_counterexample :
    ("bypass" ≠ "silent-allow" ∧ "bypass" ≠ "alert" ∧
     "bypass" ≠ "silent-deny" ∧ "bypass" ≠ "lockdown") ∧
    (evaluatePolicy oFalse { emptyState with rules := [allowAllRule] }
      ctxBase "bypass" 0 [] 1000).1.allowed = true := by
  refine ⟨⟨?_, ?_, ?_, ?_⟩, ?_⟩ <;> first | decide | rfl

/-- Claim C3 amended: an unknown mode string never produces an allow
verdict through the mode defaults: when no enabled rule matches the
context, evaluation under a mode outside the four enumerated strings
always denies.  A matching enabled rule, however, is still applied and
can allow (see the counterexample). -/
theorem claimC3_unknown_mode_defaults_deny (o : Oracles) (st : SentinelState)
    (ctx : PolicyContext) (mode : String) (a : ℚ) (rf : List RiskFactor)
    (now : Int)
    (h1 : mode ≠ "silent-allow") (h2 : mode ≠ "alert")
    (h3 : mode ≠ "silent-deny") (h4 : mode ≠ "lockdown")
    (hrules : ∀ r ∈ st.rules, r.enabled = true → ruleMatches o r ctx = false) :
    (evaluatePolicy o st ctx mode a rf now).1.allowed = false := by
  unfold evaluatePolicy
  simp only [denyVerdict]
  split
  · rfl
  · split
    · rfl
    · split
      · rfl
      · split
        · rfl
        · have hlock : (mode == "lockdown") = false := by
            simpa using h4
          rw [hlock]
          simp only [Bool.false_eq_true, if_false]
          rw [applyRules_sorted_none o ctx _ a rf]
          · have ha : (mode == "silent-allow") = false := by simpa using h1
            have hb : (mode == "alert") = false := by simpa using h2
            have hc : (mode == "silent-deny") = false := by simpa using h3
            rw [ha, hb, hc]
            simp
          · exact fun r hr he => hrules r hr he

/-- Claim C3 amended witness: the unknown mode bypass with an empty rule
set denies. -/
theorem claimC3_unknown_mode_defaults_deny_witness :
    (evaluatePolicy oFalse emptyState ctxBase "bypass" 0 [] 1000).1.allowed
      = false :=
  claimC3_unknown_mode_defaults_deny oFalse emptyState ctxBase "bypass" 0 [] 1000
    (by decide) (by decide) (by decide) (by decide)
    (fun r hr _ => absurd hr (by simp [emptyState]))

theorem cleanupQuarantine_idem (q : List QuarantineEntry) (now : Int) :
    cleanupQuarantine (cleanupQuarantine q now) now = cleanupQuarantine q now := by
  unfold cleanupQuarantine
  rw [List.filter_filter]
  simp

theorem quarantineCheck_cleanup (q : List QuarantineEntry) (s t : String)
    (now : Int) :
    (quarantineCheck (cleanupQuarantine q now) s t now).1 =
      (quarantineCheck q s t now).1 := by
  unfold quarantineCheck
  rw [cleanupQuarantine_idem]

/-! ### Claim C4 (confirmed) -/

/-- Claim C4: when the circuit gate does not fire, any unexpired
quarantine entry whose target exactly equals the request host, tool or
agent (same scope) forces a deny with risk score 100 and a reason
containing the word quarantined, for every rule set, every mode, every
anomaly score and every oracle instantiation; a quarantined host is
reported first, before tool and agent. -/
theorem claimC4_quarantine_gate (o : Oracles) (st : SentinelState)
    (ctx : PolicyContext) (mode : String) (a : ℚ) (rf : List RiskFactor)
    (now : Int)
    (hc : (circuitOpenCheck st.circuit ctx.host now).1 = false)
    (hq : quarantineActive st.quarantine "host" ctx.host now ∨
          quarantineActive st.quarantine "tool" ctx.tool now ∨
          quarantineActive st.quarantine "agent" ctx.agent now) :
    (evaluatePolicy o st ctx mode a rf now).1.allowed = false ∧
    (evaluatePolicy o st ctx mode a rf now).1.action = "deny" ∧
    (evaluatePolicy o st ctx mode a rf now).1.riskScore = 100 ∧
    strIncludes (evaluatePolicy o st ctx mode a rf now).1.reason "quarantined"
      = true ∧
    (quarantineActive st.quarantine "host" ctx.host now →
      (evaluatePolicy o st ctx mode a rf now).1.reason =
        "Host " ++ ctx.host ++ " is quarantined") := by
  have hclean : (quarantineCheck st.quarantine "host" ctx.host now).2 =
      cleanupQuarantine st.quarantine now := rfl
  unfold evaluatePolicy
  simp only [hc, Bool.false_eq_true, if_false, denyVerdict]
  split
  · next hh =>
      refine ⟨rfl, rfl, rfl, ?_, fun _ => rfl⟩
      exact strIncludes_append_right _ _ _ (by decide)
  · next hh =>
      have hhostF : (quarantineCheck st.quarantine "host" ctx.host now).1 = false :=
        Bool.not_eq_true _ ▸ Bool.of_not_eq_true hh
      have hhostNA : ¬ quarantineActive st.quarantine "host" ctx.host now := by
        rw [← quarantineCheck_true_iff]
        simp [hhostF]
      split
      · next ht =>
          refine ⟨rfl, rfl, rfl, ?_, fun hx => absurd hx hhostNA⟩
          exact strIncludes_append_right _ _ _ (by decide)
      · next ht =>
          have htoolF : (quarantineCheck st.quarantine "tool" ctx.tool now).1
              = false := by
            rw [← quarantineCheck_cleanup st.quarantine "tool" ctx.tool now,
              ← hclean]
            simpa using ht
          have htoolNA : ¬ quarantineActive st.quarantine "tool" ctx.tool now := by
            rw [← quarantineCheck_true_iff]
            simp [htoolF]
          split
          · next ha2 =>
              refine ⟨rfl, rfl, rfl, ?_, fun hx => absurd hx hhostNA⟩
              exact strIncludes_append_right _ _ _ (by decide)
          · next ha2 =>
              exfalso
              have hagentF : (quarantineCheck st.quarantine "agent" ctx.agent
                  now).1 = false := by
                have hclean2 : (quarantineCheck
                    (quarantineCheck st.quarantine "host" ctx.host now).2
                    "tool" ctx.tool now).2 = cleanupQuarantine st.quarantine now := by
                  rw [hclean]
                  show cleanupQuarantine (cleanupQuarantine st.quarantine now) now
                    = cleanupQuarantine st.quarantine now
                  exact cleanupQuarantine_idem _ _
                rw [← quarantineCheck_cleanup st.quarantine "agent" ctx.agent now]
                rw [← hclean2] at *
                simpa using ha2
              have hagentNA : ¬ quarantineActive st.quarantine "agent" ctx.agent
                  now := by
                rw [← quarantineCheck_true_iff]
                simp [hagentF]
              rcases hq with h | h | h
              · exact hhostNA h
              · exact htoolNA h
              · exact hagentNA h

def qHostEntry : QuarantineEntry :=
  { scope := "host", target := "h", reason := "incident", createdAt := 0,
    expiresAt := none, createdBy := "op" }

/-- State for the C4 witness: host h quarantined for ever, together with
an enabled allow-everything rule at priority 0. -/
def stC4 : SentinelState :=
  { emptyState with rules := [allowAllRule], quarantine := [qHostEntry] }

/-- Claim C4 witness: the quarantined host h is denied with score 100
and a reason containing quarantined despite the allow-everything rule in
silent-allow mode. -/
theorem claimC4_quarantine_gate_witness :
    (evaluatePolicy oFalse stC4 ctxBase "silent-allow" 0 [] 1000).1.allowed
        = false ∧
    (evaluatePolicy oFalse stC4 ctxBase "silent-allow" 0 [] 1000).1.riskScore
        = 100 ∧
    strIncludes
      (evaluatePolicy oFalse stC4 ctxBase "silent-allow" 0 [] 1000).1.reason
      "quarantined" = true := by
  have h := claimC4_quarantine_gate oFalse stC4 ctxBase "silent-allow" 0 [] 1000
    (by rfl)
    (Or.inl ⟨qHostEntry, by simp [stC4, emptyState], rfl, rfl,
      fun x hx => by simp [qHostEntry] at hx⟩)
  exact ⟨h.1, h.2.2.1, h.2.2.2.1⟩

/-! ### Claim C7 (confirmed) -/

/-- Claim C7: in lockdown mode, with the circuit gate silent and nothing
quarantined, the verdict allows exactly the requests whose tool name
contains health or status as a substring; allowed health checks carry
risk score 0, everything else is denied with risk 100 and a reason
containing lockdown; the verdict is independent of the rule set. -/
theorem claimC7_lockdown_gate (o : Oracles) (st : SentinelState)
    (ctx : PolicyContext) (a : ℚ) (rf : List RiskFactor) (now : Int)
    (hc : (circuitOpenCheck st.circuit ctx.host now).1 = false)
    (hqh : ¬ quarantineActive st.quarantine "host" ctx.host now)
    (hqt : ¬ quarantineActive st.quarantine "tool" ctx.tool now)
    (hqa : ¬ quarantineActive st.quarantine "agent" ctx.agent now) :
    ((evaluatePolicy o st ctx "lockdown" a rf now).1.allowed =
      (strIncludes ctx.tool "health" || strIncludes ctx.tool "status")) ∧
    ((strIncludes ctx.tool "health" || strIncludes ctx.tool "status") = true →
      (evaluatePolicy o st ctx "lockdown" a rf now).1.action = "allow" ∧
      (evaluatePolicy o st ctx "lockdown" a rf now).1.riskScore = 0) ∧
    ((strIncludes ctx.tool "health" || strIncludes ctx.tool "status") = false →
      (evaluatePolicy o st ctx "lockdown" a rf now).1.action = "deny" ∧
      (evaluatePolicy o st ctx "lockdown" a rf now).1.riskScore = 100 ∧
      strIncludes (evaluatePolicy o st ctx "lockdown" a rf now).1.reason
        "lockdown" = true) ∧
    (∀ rules2 : List SentinelRule,
      (evaluatePolicy o { st with rules := rules2 } ctx "lockdown" a rf now).1
        = (evaluatePolicy o st ctx "lockdown" a rf now).1) := by
  have e1 : (quarantineCheck st.quarantine "host" ctx.host now).1 = false := by
    rw [← Bool.not_eq_true]
    rw [quarantineCheck_true_iff]
    exact hqh
  have hclean : (quarantineCheck st.quarantine "host" ctx.host now).2 =
      cleanupQuarantine st.quarantine now := rfl
  have e2 : (quarantineCheck (quarantineCheck st.quarantine "host" ctx.host
      now).2 "tool" ctx.tool now).1 = false := by
    rw [hclean, quarantineCheck_cleanup, ← Bool.not_eq_true,
      quarantineCheck_true_iff]
    exact hqt
  have hclean2 : (quarantineCheck (quarantineCheck st.quarantine "host"
      ctx.host now).2 "tool" ctx.tool now).2 =
      cleanupQuarantine st.quarantine now := by
    rw [hclean]
    exact cleanupQuarantine_idem _ _
  have e3 : (quarantineCheck (quarantineCheck (quarantineCheck st.quarantine
      "host" ctx.host now).2 "tool" ctx.tool now).2 "agent" ctx.agent now).1
      = false := by
    rw [hclean2, quarantineCheck_cleanup, ← Bool.not_eq_true,
      quarantineCheck_true_iff]
    exact hqa
  cases hinc : (strIncludes ctx.tool "health" || strIncludes ctx.tool "status")
  · refine ⟨?_, by simp, fun _ => ⟨?_, ?_, ?_⟩, fun rules2 => ?_⟩ <;>
      · unfold evaluatePolicy
        simp only [hc, e1, e2, e3, Bool.false_eq_true, if_false, denyVerdict,
          hinc]
        first
        | rfl
        | exact strIncludes_append_right "" _ _ (by decide)
        | decide
  · refine ⟨?_, fun _ => ⟨?_, ?_⟩, by simp, fun rules2 => ?_⟩ <;>
      · unfold evaluatePolicy
        simp only [hc, e1, e2, e3, Bool.false_eq_true, if_false, denyVerdict,
          hinc]
        first
        | rfl
        | decide

/-- Claim C7 witness: in lockdown, a health-check tool is allowed and an
ssh tool is denied, on the empty store. -/
theorem claimC7_lockdown_gate_witness :
    (evaluatePolicy oFalse emptyState { ctxBase with tool := "fleet_health_check" }
      "lockdown" 0 [] 5).1.allowed = true ∧
    (evaluatePolicy oFalse emptyState ctxBase "lockdown" 0 [] 5).1.allowed
      = false := by
  have hno : ∀ s t, ¬ quarantineActive emptyState.quarantine s t 5 := by
    rintro s t ⟨e, he, _⟩
    simp [emptyState] at he
  have h1 := claimC7_lockdown_gate oFalse emptyState
    { ctxBase with tool := "fleet_health_check" } 0 [] 5 (by rfl)
    (hno _ _) (hno _ _) (hno _ _)
  have h2 := claimC7_lockdown_gate oFalse emptyState ctxBase 0 [] 5 (by rfl)
    (hno _ _) (hno _ _) (hno _ _)
  refine ⟨h1.1.trans (by decide), h2.1.trans (by decide)⟩

/-! ### Claim C10 (confirmed) -/

/-- Claim C10: in alert mode, when no enabled rule matches and the
safety gates are silent, the engine answers ask with
requires-confirmation set, and the confirmation-token table is left
untouched: a context-carried token is neither read nor consumed, because
the token path runs only inside a matched ask rule. -/
theorem claimC10_alert_unmatched_leaves_token (o : Oracles) (st : SentinelState)
    (ctx : PolicyContext) (a : ℚ) (rf : List RiskFactor) (now : Int)
    (hc : (circuitOpenCheck st.circuit ctx.host now).1 = false)
    (hqh : ¬ quarantineActive st.quarantine "host" ctx.host now)
    (hqt : ¬ quarantineActive st.quarantine "tool" ctx.tool now)
    (hqa : ¬ quarantineActive st.quarantine "agent" ctx.agent now)
    (hrules : ∀ r ∈ st.rules, r.enabled = true → ruleMatches o r ctx = false) :
    (evaluatePolicy o st ctx "alert" a rf now).1.action = "ask" ∧
    (evaluatePolicy o st ctx "alert" a rf now).1.allowed = false ∧
    (evaluatePolicy o st ctx "alert" a rf now).1.requiresConfirmation = true ∧
    (evaluatePolicy o st ctx "alert" a rf now).2.tokens = st.tokens := by
  have e1 : (quarantineCheck st.quarantine "host" ctx.host now).1 = false := by
    rw [← Bool.not_eq_true, quarantineCheck_true_iff]; exact hqh
  have hclean : (quarantineCheck st.quarantine "host" ctx.host now).2 =
      cleanupQuarantine st.quarantine now := rfl
  have e2 : (quarantineCheck (quarantineCheck st.quarantine "host" ctx.host
      now).2 "tool" ctx.tool now).1 = false := by
    rw [hclean, quarantineCheck_cleanup, ← Bool.not_eq_true,
      quarantineCheck_true_iff]
    exact hqt
  have hclean2 : (quarantineCheck (quarantineCheck st.quarantine "host"
      ctx.host now).2 "tool" ctx.tool now).2 =
      cleanupQuarantine st.quarantine now := by
    rw [hclean]; exact cleanupQuarantine_idem _ _
  have e3 : (quarantineCheck (quarantineCheck (quarantineCheck st.quarantine
      "host" ctx.host now).2 "tool" ctx.tool now).2 "agent" ctx.agent now).1
      = false := by
    rw [hclean2, quarantineCheck_cleanup, ← Bool.not_eq_true,
      quarantineCheck_true_iff]
    exact hqa
  refine ⟨?_, ?_, ?_, ?_⟩ <;>
    · unfold evaluatePolicy
      simp only [hc, e1, e2, e3, Bool.false_eq_true, if_false]
      rw [show (("alert" : String) == "lockdown") = false by decide]
      simp only [Bool.false_eq_true, if_false]
      rw [applyRules_sorted_none o ctx _ a rf]
      · rw [show (("alert" : String) == "silent-allow") = false by decide,
          show (("alert" : String) == "alert") = true by decide]
        simp
      · exact fun r hr he => hrules r hr he

/-- An unused confirmation token bound to tool t, host h, agent a,
expiring at time 5. -/
def tokRowBound : TokenRow :=
  { token := "tok1", tool := "t", host := "h", agent := "a",
    argumentsJson := "", createdAt := 0, expiresAt := 5, used := false }

/-- Claim C10 witness: in alert mode with no rules at all, a retry that
presents a minted token still gets ask and the token row is untouched. -/
theorem claimC10_alert_unmatched_leaves_token_witness :
    (evaluatePolicy oFalse { emptyState with tokens := [tokRowBound] }
      { ctxBase with confirmationToken := some "tok1" } "alert" 0 [] 7).1.action
      = "ask" ∧
    (evaluatePolicy oFalse { emptyState with tokens := [tokRowBound] }
      { ctxBase with confirmationToken := some "tok1" } "alert" 0 [] 7).2.tokens
      = [tokRowBound] := by
  have hno : ∀ s t,
      ¬ quarantineActive ({ emptyState with
        tokens := [tokRowBound] } : SentinelState).quarantine s t 7 := by
    rintro s t ⟨e, he, _⟩
    simp [emptyState] at he
  have h := claimC10_alert_unmatched_leaves_token oFalse
    { emptyState with tokens := [tokRowBound] }
    { ctxBase with confirmationToken := some "tok1" } 0 [] 7 (by rfl)
    (hno _ _) (hno _ _) (hno _ _)
    (fun r hr _ => absurd hr (by simp [emptyState]))
  exact ⟨h.1, h.2.2.2⟩

/-! ### Claim C1 (code bug: the rate limiter is never consulted) -/

theorem evaluatePolicy_buckets (o : Oracles) (st : SentinelState)
    (ctx : PolicyContext) (mode : String) (a : ℚ) (rf : List RiskFactor)
    (now : Int) :
    (evaluatePolicy o st ctx mode a rf now).2.buckets = st.buckets := by
  unfold evaluatePolicy
  dsimp only
  repeat' split
  all_goals try rfl
  next x res heq =>
    rcases applyRules_state o _ ctx a rf _ res heq with h | h <;> rw [h]

theorem interceptToolCall_buckets (sha : String → String) (o : Oracles)
    (freshTok : String) (ttlMs : Int) (st : SentinelState) (ctx : PolicyContext)
    (mode : String) (now : Int) :
    (interceptToolCall sha o freshTok ttlMs st ctx mode now).2.buckets
      = st.buckets := by
  unfold interceptToolCall
  dsimp only
  repeat' split
  all_goals simp [evaluatePolicy_buckets]

/-- A bucket for the allow-all rule and the base context holding zero
tokens, last refilled at the evaluation instant (so no refill is due). -/
def zeroBucket : BucketRow :=
  { ruleId := "r1", tool := "fleet_ssh_exec", host := "h", agent := "a",
    tokens := 0, lastRefill := 1000, createdAt := 0 }

def stC1 : SentinelState :=
  { emptyState with rules := [allowAllRule], buckets := [zeroBucket] }

/-- Claim C1: contrary to the claim, neither policy evaluation nor the
interceptor path ever consults or updates a token bucket: the bucket
table survives every request unchanged, and a request matching an
enabled allow rule that carries a rate limit is allowed even though its
bucket holds zero tokens, instead of being denied as rate limited. -/
theorem claimC1_rate_limit_never_consulted :
    (∀ (sha : String → String) (o : Oracles) (freshTok : String) (ttlMs : Int)
      (st : SentinelState) (ctx : PolicyContext) (mode : String) (now : Int),
      (interceptToolCall sha o freshTok ttlMs st ctx mode now).2.buckets
        = st.buckets) ∧
    allowAllRule.rateLimit = some ⟨3, 60, 1⟩ ∧
    zeroBucket.tokens = 0 ∧
    (evaluatePolicy oFalse stC1 ctxBase "silent-deny" 0 [] 1000).1.allowed
      = true ∧
    (evaluatePolicy oFalse stC1 ctxBase "silent-deny" 0 [] 1000).1.reason
      = "Allowed by rule: allow-all" ∧
    (evaluatePolicy oFalse stC1 ctxBase "silent-deny" 0 [] 1000).2.buckets
      = [zeroBucket] := by
  exact ⟨interceptToolCall_buckets, rfl, rfl, rfl, rfl, rfl⟩

/-! ### Claim C2 (code bug: token binding and expiry are not checked) -/

/-- A context that differs from the binding of tokRowBound in all three
of tool, host and agent, and presents that token. -/
def ctxMismatch : PolicyContext :=
  { tool := "t2", host := "h2", agent := "a2", arguments := [],
    timestamp := 0, confirmationToken := some "tok1" }

def askRule : SentinelRule :=
  { id := "r2", name := "Ask rule", priority := 0, action := "ask",
    enabled := true, toolPattern := none, hostPattern := none,
    agentPattern := none, argumentPattern := none, rateLimit := none,
    schedule := none, createdAt := 0, updatedAt := 0 }

def stC2 : SentinelState :=
  { emptyState with rules := [askRule], tokens := [tokRowBound] }

/-- Claim C2: contrary to the claim, the engine accepts a confirmation
token that is bound to a different tool, host and agent and that is
already expired: at time 1000000 the token bound to (t, h, a) with
expiry 5 validates a request for (t2, h2, a2), the verdict is allow with
a confirmed-via-token reason, and the token is consumed. -/
theorem claimC2_token_binding_ignored :
    (tokRowBound.tool ≠ ctxMismatch.tool ∧ tokRowBound.host ≠ ctxMismatch.host ∧
     tokRowBound.agent ≠ ctxMismatch.agent ∧ tokRowBound.expiresAt < 1000000 ∧
     tokRowBound.used = false) ∧
    (evaluatePolicy oFalse stC2 ctxMismatch "silent-deny" 0 [] 1000000).1.allowed
      = true ∧
    strIncludes
      (evaluatePolicy oFalse stC2 ctxMismatch "silent-deny" 0 [] 1000000).1.reason
      "Confirmed via token" = true ∧
    (evaluatePolicy oFalse stC2 ctxMismatch "silent-deny" 0 [] 1000000).2.tokens
      = [{ tokRowBound with used := true }] := by
  exact ⟨⟨by decide, by decide, by decide, by decide, rfl⟩, rfl, by rfl, rfl⟩

/-! ### Claim C9 (code bug: argument serialization is not canonical) -/

/-- Claim C9: the serializations used for pattern matching and for the
anomaly fingerprint are not canonical JSON.  Rule matching serializes
arguments with plain stringify, so two argument trees equal up to key
order yield different regex inputs; and the fingerprint serialization
passes the sorted top-level key list as an array replacer, which drops
every nested field whose name is not also a top-level key: the two
distinct argument trees with o mapped to nested objects x equal 1 and
x equal 2 produce the identical fingerprint input in which the nested
object has been emptied. -/
theorem claimC9_serialization_not_canonical :
    keyOrderEquiv (Json.obj [("b", Json.num 1), ("a", Json.num 2)])
      (Json.obj [("a", Json.num 2), ("b", Json.num 1)]) ∧
    jsonStringify (Json.obj [("b", Json.num 1), ("a", Json.num 2)]) ≠
      jsonStringify (Json.obj [("a", Json.num 2), ("b", Json.num 1)]) ∧
    Json.obj [("o", Json.obj [("x", Json.num 1)])] ≠
      Json.obj [("o", Json.obj [("x", Json.num 2)])] ∧
    hashArgumentsInput [("o", Json.obj [("x", Json.num 1)])] =
      hashArgumentsInput [("o", Json.obj [("x", Json.num 2)])] ∧
    hashArgumentsInput [("o", Json.obj [("x", Json.num 1)])] =
      "\x7b\"o\":\x7b\x7d\x7d" := by
  refine ⟨?_, ?_, ?_, ?_, ?_⟩
  · show canonJson _ = canonJson _
    simp [canonJson, canonFields, List.insertionSort, List.orderedInsert, fieldLe,
      strLe]
    rw [if_neg (by decide), if_pos (by decide)]
  · decide
  · intro h
    exact absurd (congrArg jsonStringify h) (by decide)
  · rfl
  · rfl

/-! ### Audit chain structure -/

/-- The hash of the last entry of a block, or the carried-in previous
hash when the block is empty. -/
def chainLastHash (p : String) (l : List AuditRow) : String :=
  match l.getLast? with
  | some e => e.hash
  | none => p

/-- A correctly linked hash chain starting at sequence number n with
previous hash p: sequence numbers are dense and increasing from n, every
link points at the hash of the entry before it, and every stored hash is
the digest of the exact pipe-separated hash input. -/
def chainFrom (sha : String → String) : String → Nat → List AuditRow → Prop
  | _, _, [] => True
  | p, n, e :: rest =>
      e.seq = n ∧ e.previousHash = p ∧
      e.hash = sha (hashInput e.seq e.ts e.tool e.host e.agent e.verdict
        e.previousHash) ∧
      chainFrom sha e.hash (n + 1) rest

theorem chainLastHash_cons (t : List AuditRow) : ∀ (p : String) (a : AuditRow),
    chainLastHash p (a :: t) = chainLastHash a.hash t := by
  induction t with
  | nil => intro p a; simp [chainLastHash]
  | cons b t2 ih =>
      intro p a
      have h1 : chainLastHash p (a :: b :: t2) = chainLastHash p (b :: t2) := by
        unfold chainLastHash
        rw [List.getLast?_cons_cons]
      rw [h1, ih p b, ih a.hash b]

theorem chainFrom_append_one (sha : String → String) (p : String) (n : Nat)
    (xs : List AuditRow) (e : AuditRow) :
    chainFrom sha p n (xs ++ [e]) ↔
      (chainFrom sha p n xs ∧ e.seq = n + xs.length ∧
       e.previousHash = chainLastHash p xs ∧
       e.hash = sha (hashInput e.seq e.ts e.tool e.host e.agent e.verdict
         e.previousHash)) := by
  induction xs generalizing p n with
  | nil => simp [chainFrom, chainLastHash]
  | cons a t ih =>
      simp only [List.cons_append, chainFrom, List.append_eq, ih,
        chainLastHash_cons, List.length_cons]
      constructor
      · rintro ⟨h1, h2, h3, ⟨h4, h5, h6, h7⟩⟩
        exact ⟨⟨h1, h2, h3, h4⟩, by omega, h6, h7⟩
      · rintro ⟨⟨h1, h2, h3, h4⟩, h5, h6, h7⟩
        exact ⟨h1, h2, h3, h4, by omega, h6, h7⟩

theorem foldl_max_init_le (l : List AuditRow) (init : Nat) :
    init ≤ l.foldl (fun m e => max m e.seq) init := by
  induction l generalizing init with
  | nil => exact le_refl _
  | cons a t ih => exact le_trans (le_max_left _ _) (ih _)

theorem seq_le_foldl_max (l : List AuditRow) (init : Nat) (e : AuditRow)
    (he : e ∈ l) : e.seq ≤ l.foldl (fun m x => max m x.seq) init := by
  induction l generalizing init with
  | nil => cases he
  | cons a t ih =>
      rcases List.mem_cons.1 he with rfl | hmem
      · exact le_trans (le_max_right _ _) (foldl_max_init_le t _)
      · exact ih _ hmem

theorem lastBySeq_aux_mem (l : List AuditRow) (acc : Option AuditRow)
    (b : AuditRow)
    (h : l.foldl (fun acc e =>
      match acc with
      | none => some e
      | some x => if x.seq < e.seq then some e else some x) acc = some b) :
    acc = some b ∨ b ∈ l := by
  induction l generalizing acc with
  | nil => exact Or.inl h
  | cons a t ih =>
      rcases ih _ h with hacc | hmem
      · cases acc with
        | none =>
            simp only [Option.some.injEq] at hacc
            exact Or.inr (by simp [hacc])
        | some x =>
            by_cases hlt : x.seq < a.seq
            · simp only [if_pos hlt, Option.some.injEq] at hacc
              exact Or.inr (by simp [hacc])
            · simp only [if_neg hlt] at hacc
              exact Or.inl hacc
      · exact Or.inr (List.mem_cons_of_mem _ hmem)

theorem lastBySeq_mem (l : List AuditRow) (b : AuditRow)
    (h : lastBySeq l = some b) : b ∈ l := by
  rcases lastBySeq_aux_mem l none b h with hacc | hmem
  · cases hacc
  · exact hmem

theorem getLastSequenceNumber_append_one (l : List AuditRow) (e : AuditRow) :
    getLastSequenceNumber (l ++ [e]) = max (getLastSequenceNumber l) e.seq := by
  simp [getLastSequenceNumber, List.foldl_append]

theorem lastBySeq_append_one (l : List AuditRow) (e : AuditRow) :
    lastBySeq (l ++ [e]) =
      (match lastBySeq l with
       | none => some e
       | some b => if b.seq < e.seq then some e else some b) := by
  simp [lastBySeq, List.foldl_append]

theorem runAudit_append (sha : String → String) (o : Oracles)
    (xs : List AuditInput) (x : AuditInput) :
    runAudit sha o (xs ++ [x]) = (createAuditEntry sha o (runAudit sha o xs) x).2 := by
  simp [runAudit, List.foldl_append]

/-- The combined induction: an audit log built by createAuditEntry from
the empty table is a correct chain from GENESIS at sequence 1, its MAX
sequence equals its length, the hash returned for the next entry is the
hash of its last entry, its length matches the input count, and every
entry carries the verdict string derived from its verdict. -/
theorem runAudit_inv (sha : String → String) (o : Oracles)
    (inputs : List AuditInput) :
    chainFrom sha GENESIS_HASH 1 (runAudit sha o inputs) ∧
    getLastSequenceNumber (runAudit sha o inputs) = (runAudit sha o inputs).length ∧
    getLastHash (runAudit sha o inputs) =
      chainLastHash GENESIS_HASH (runAudit sha o inputs) ∧
    (runAudit sha o inputs).length = inputs.length ∧
    List.Forall₂ (fun (e : AuditRow) (inp : AuditInput) =>
      e.verdict = verdictString inp.verdict) (runAudit sha o inputs) inputs := by
  induction inputs using List.reverseRecOn with
  | nil => exact ⟨trivial, rfl, rfl, rfl, List.Forall₂.nil⟩
  | append_singleton xs x ih =>
      obtain ⟨ih1, ih2, ih3, ih4, ih5⟩ := ih
      rw [runAudit_append]
      have hsplit : (createAuditEntry sha o (runAudit sha o xs) x).2 =
          runAudit sha o xs ++ [(createAuditEntry sha o (runAudit sha o xs) x).1] :=
        rfl
      rw [hsplit]
      set log := runAudit sha o xs with hlogdef
      set entry := (createAuditEntry sha o log x).1 with hentry
      have hseq : entry.seq = log.length + 1 := by
        rw [hentry]
        show getLastSequenceNumber log + 1 = log.length + 1
        rw [ih2]
      have hprev : entry.previousHash = chainLastHash GENESIS_HASH log := by
        rw [hentry]
        show getLastHash log = chainLastHash GENESIS_HASH log
        exact ih3
      have hhash : entry.hash = sha (hashInput entry.seq entry.ts entry.tool
          entry.host entry.agent entry.verdict entry.previousHash) := rfl
      refine ⟨?_, ?_, ?_, ?_, ?_⟩
      · rw [chainFrom_append_one]
        exact ⟨ih1, by omega, hprev, hhash⟩
      · rw [getLastSequenceNumber_append_one, ih2, hseq]
        simp
      · unfold getLastHash
        rw [lastBySeq_append_one]
        have hlast : chainLastHash GENESIS_HASH (log ++ [entry]) = entry.hash := by
          simp [chainLastHash, List.getLast?_concat]
        cases hlb : lastBySeq log with
        | none => simpa using hlast.symm
        | some b =>
            have hb : b.seq < entry.seq := by
              have hmem := lastBySeq_mem log b hlb
              have := seq_le_foldl_max log 0 b hmem
              have h2 : b.seq ≤ getLastSequenceNumber log := this
              omega
            simpa [if_pos hb] using hlast.symm
      · simpa using ih4
      · exact List.rel_append ih5 (List.Forall₂.cons rfl List.Forall₂.nil)

theorem chainFrom_getElem_seq (sha : String → String) :
    ∀ (l : List AuditRow) (p : String) (n : Nat),
      chainFrom sha p n l →
      ∀ (i : Nat) (h : i < l.length), l[i].seq = n + i := by
  intro l
  induction l with
  | nil => intro p n _ i h; simp at h
  | cons a t ih =>
      intro p n hc i h
      obtain ⟨h1, _, _, h4⟩ := hc
      cases i with
      | zero => simpa using h1
      | succ j =>
          have hj : j < t.length := by simpa using h
          have := ih a.hash (n + 1) h4 j hj
          simpa [this] using by omega

theorem chainFrom_getElem_prev0 (sha : String → String) (l : List AuditRow)
    (p : String) (n : Nat) (hc : chainFrom sha p n l) (h : 0 < l.length) :
    l[0].previousHash = p := by
  cases l with
  | nil => simp at h
  | cons a t => exact hc.2.1

theorem chainFrom_getElem_prev_succ (sha : String → String) :
    ∀ (l : List AuditRow) (p : String) (n : Nat),
      chainFrom sha p n l →
      ∀ (i : Nat) (h : i + 1 < l.length),
        l[i + 1].previousHash = l[i].hash := by
  intro l
  induction l with
  | nil => intro p n _ i h; simp at h
  | cons a t ih =>
      intro p n hc i h
      obtain ⟨_, _, _, h4⟩ := hc
      cases i with
      | zero =>
          have ht : 0 < t.length := by simpa using h
          have := chainFrom_getElem_prev0 sha t a.hash (n + 1) h4 ht
          simpa using this
      | succ j =>
          have hj : j + 1 < t.length := by simpa using h
          have := ih a.hash (n + 1) h4 j hj
          simpa using this

theorem chainFrom_seq_lb (sha : String → String) :
    ∀ (l : List AuditRow) (p : String) (n : Nat),
      chainFrom sha p n l → ∀ e ∈ l, n ≤ e.seq := by
  intro l
  induction l with
  | nil => intro p n _ e he; cases he
  | cons a t ih =>
      intro p n hc e he
      obtain ⟨h1, _, _, h4⟩ := hc
      rcases List.mem_cons.1 he with rfl | hmem
      · omega
      · have := ih a.hash (n + 1) h4 e hmem
        omega

theorem chainFrom_sorted (sha : String → String) :
    ∀ (l : List AuditRow) (p : String) (n : Nat),
      chainFrom sha p n l → List.Sorted auditSeqLe l := by
  intro l
  induction l with
  | nil => intro p n _; exact List.sorted_nil
  | cons a t ih =>
      intro p n hc
      obtain ⟨h1, _, _, h4⟩ := hc
      refine List.sorted_cons.2 ⟨?_, ih a.hash (n + 1) h4⟩
      intro b hb
      have := chainFrom_seq_lb sha t a.hash (n + 1) h4 b hb
      unfold auditSeqLe
      omega

/-! ### Claim C5 (confirmed) -/

/-- Claim C5: every audit log produced by a sequence of createAuditEntry
calls on an initially empty store is a correct chain from GENESIS at
sequence 1: positionally, entry i carries sequence number i plus 1 (so
the numbers are exactly 1..N, dense, strictly increasing), the first
previous hash is the literal GENESIS, each later previous hash is the
hash of the entry before it, each stored hash is the digest of the exact
string seq|ts|tool|host|agent|verdict|previous-hash, and each verdict
string is asked when confirmation is required, else allowed when
allowed, else denied.  The digest sha is universally quantified. -/
theorem claimC5_audit_chain_invariants (sha : String → String) (o : Oracles)
    (inputs : List AuditInput) :
    chainFrom sha GENESIS_HASH 1 (runAudit sha o inputs) ∧
    (runAudit sha o inputs).length = inputs.length ∧
    (∀ (i : Nat) (h : i < (runAudit sha o inputs).length),
      (runAudit sha o inputs)[i].seq = i + 1) ∧
    List.Forall₂ (fun (e : AuditRow) (inp : AuditInput) =>
      e.verdict = verdictString inp.verdict) (runAudit sha o inputs) inputs := by
  obtain ⟨h1, _, _, h4, h5⟩ := runAudit_inv sha o inputs
  refine ⟨h1, h4, ?_, h5⟩
  intro i h
  have := chainFrom_getElem_seq sha _ _ _ h1 i h
  omega

/-! ### Claim C6 (corrected) -/

theorem verifyGo_append (sha : String → String) :
    ∀ (xs : List AuditRow) (p : String) (ys : List AuditRow),
      verifyGo sha p (xs ++ ys) =
        verifyGo sha p xs ++ verifyGo sha (chainLastHash p xs) ys := by
  intro xs
  induction xs with
  | nil => intro p ys; simp [verifyGo, chainLastHash]
  | cons a t ih =>
      intro p ys
      simp only [List.cons_append, verifyGo, List.append_eq, ih,
        chainLastHash_cons, List.append_assoc]

theorem verifyGo_head_ne (sha : String → String) (p : String) (e : AuditRow)
    (rest : List AuditRow) (h : e.previousHash ≠ p) :
    verifyGo sha p (e :: rest) ≠ [] := by
  unfold verifyGo
  have hb : (e.previousHash != p) = true := by
    simpa using h
  rw [hb]
  simp

/-- Claim C6 counterexample: deleting the entry with the highest
sequence number from a valid two-entry chain leaves a chain that
verification reports as fully valid, with no break at all; the deleted
entry simply vanishes.  The digest here is the injective tagging
function shaTag. -/
def shaTag : String → String := fun s => "#" ++ s

def verdictAllowFix : PolicyVerdict :=
  { allowed := true, action := "allow", reason := "ok", matchedRuleId := none,
    matchedRuleName := none, riskScore := 0, riskFactors := [],
    requiresConfirmation := false }

def audIn1 : AuditInput :=
  { ctx := ctxBase, verdict := verdictAllowFix, mode := "silent-allow", now := 10 }

def audIn2 : AuditInput :=
  { ctx := ctxMismatch, verdict := verdictAllowFix, mode := "silent-allow",
    now := 20 }

theorem claimC6_counterexample :
    (runAudit shaTag oFalse [audIn1, audIn2]).length = 2 ∧
    (verifyAuditChain shaTag (runAudit shaTag oFalse [audIn1, audIn2])).valid
      = true ∧
    ((runAudit shaTag oFalse [audIn1, audIn2]).eraseIdx 1).length = 1 ∧
    (verifyAuditChain shaTag
      ((runAudit shaTag oFalse [audIn1, audIn2]).eraseIdx 1)).valid = true ∧
    (verifyAuditChain shaTag
      ((runAudit shaTag oFalse [audIn1, audIn2]).eraseIdx 1)).brokenChains
      = [] := by
  refine ⟨rfl, rfl, rfl, rfl, rfl⟩

/-- Claim C6 amended: deleting any single entry other than the one with
the highest sequence number from an audit chain built by
createAuditEntry causes verification to report at least one break,
provided the digest is collision-free on the chain (pairwise distinct
hashes, none equal to the GENESIS literal).  Deleting the entry with the
highest sequence number is never detected: verification checks no
gaplessness and the truncated chain remains internally consistent. -/
theorem claimC6_delete_nonlast_detected (sha : String → String) (o : Oracles)
    (inputs : List AuditInput) (k : Nat)
    (hk : k + 1 < (runAudit sha o inputs).length)
    (hnodup : ((runAudit sha o inputs).map (fun e => e.hash)).Nodup)
    (hgen : GENESIS_HASH ∉ (runAudit sha o inputs).map (fun e => e.hash)) :
    (verifyAuditChain sha ((runAudit sha o inputs).eraseIdx k)).valid = false ∧
    (verifyAuditChain sha ((runAudit sha o inputs).eraseIdx k)).brokenChains
      ≠ [] := by
  set chain := runAudit sha o inputs with hchain
  have hcf : chainFrom sha GENESIS_HASH 1 chain := (runAudit_inv sha o inputs).1
  -- the erased list is still sorted, so the verification walk sees it as is
  have hsorted : List.Sorted auditSeqLe (chain.eraseIdx k) :=
    List.Pairwise.sublist (List.eraseIdx_sublist chain k)
      (chainFrom_sorted sha chain GENESIS_HASH 1 hcf)
  have hsort_eq : List.insertionSort auditSeqLe (chain.eraseIdx k)
      = chain.eraseIdx k :=
    List.Sorted.insertionSort_eq hsorted
  -- decompose the deletion
  have hdecomp : chain.eraseIdx k = chain.take k ++ chain.drop (k + 1) := by
    rw [List.eraseIdx_eq_take_drop_succ]
  have hklt : k < chain.length := by omega
  have hdrop : chain.drop (k + 1) = chain[k + 1] :: chain.drop (k + 2) :=
    List.drop_eq_getElem_cons hk
  -- the carried-in previous hash at the join point
  have hcarry : chainLastHash GENESIS_HASH (chain.take k) =
      if hz : k = 0 then GENESIS_HASH else chain[k - 1].hash := by
    by_cases hz : k = 0
    · subst hz
      simp [chainLastHash]
    · have hlen : (chain.take k).length = k := by
        simp [List.length_take]
        omega
      unfold chainLastHash
      rw [List.getLast?_eq_getElem?, hlen]
      have hk1 : k - 1 < (chain.take k).length := by omega
      rw [List.getElem?_eq_getElem hk1]
      simp only [List.getElem_take]
      rw [dif_neg hz]
  -- the successor entry kept its link to the deleted entry
  have hlink : chain[k + 1].previousHash = chain[k].hash :=
    chainFrom_getElem_prev_succ sha chain GENESIS_HASH 1 hcf k hk
  -- the deleted hash differs from the carried-in previous hash
  have hne : chain[k + 1].previousHash ≠
      chainLastHash GENESIS_HASH (chain.take k) := by
    rw [hlink, hcarry]
    by_cases hz : k = 0
    · rw [dif_pos hz]
      intro hcontra
      apply hgen
      rw [← hcontra]
      exact List.mem_map_of_mem (fun (e : AuditRow) => e.hash)
        (List.getElem_mem hklt)
    · rw [dif_neg hz]
      intro hcontra
      have hmk : k < (chain.map (fun e => e.hash)).length := by
        simp only [List.length_map]
        omega
      have hmk1 : k - 1 < (chain.map (fun e => e.hash)).length := by
        simp only [List.length_map]
        omega
      have hk1 : k - 1 < chain.length := by omega
      have heq2 : (chain.map (fun e => e.hash))[k]
          = (chain.map (fun e => e.hash))[k - 1] := by
        simpa using hcontra
      have hkk := (List.Nodup.getElem_inj_iff hnodup).1 heq2
      omega
  -- the verification walk reports a break at the join point
  have hbody : verifyGo sha GENESIS_HASH (chain.eraseIdx k) ≠ [] := by
    rw [hdecomp, hdrop, verifyGo_append]
    intro habs
    rcases List.append_eq_nil.1 habs with ⟨_, h2⟩
    exact verifyGo_head_ne sha _ _ _ hne h2
  have hval : (verifyAuditChain sha (chain.eraseIdx k)).brokenChains
      = verifyGo sha GENESIS_HASH (chain.eraseIdx k) := by
    unfold verifyAuditChain
    rw [hsort_eq]
  have hval2 : (verifyAuditChain sha (chain.eraseIdx k)).valid
      = (verifyGo sha GENESIS_HASH (chain.eraseIdx k)).isEmpty := by
    unfold verifyAuditChain
    rw [hsort_eq]
  refine ⟨?_, ?_⟩
  · rw [hval2]
    cases hcase : verifyGo sha GENESIS_HASH (chain.eraseIdx k) with
    | nil => exact absurd hcase hbody
    | cons b t => rfl
  · rw [hval]
    exact hbody

/-- Claim C6 amended witness: deleting the first of two entries is
detected on a concrete chain under the injective tagging digest. -/
theorem claimC6_delete_nonlast_detected_witness :
    (verifyAuditChain shaTag
      ((runAudit shaTag oFalse [audIn1, audIn2]).eraseIdx 0)).valid = false :=
  (claimC6_delete_nonlast_detected shaTag oFalse [audIn1, audIn2] 0 (by decide)
    (by decide) (by decide)).1

/-! ### Claim C8 (confirmed) -/

theorem findBreaker_map_update (circuit : List CircuitRow) (host : String)
    (f : CircuitRow → CircuitRow) (hf : ∀ r, (f r).host = r.host) :
    findBreaker (circuit.map (fun r => if r.host == host then f r else r)) host
      = (findBreaker circuit host).map f := by
  induction circuit with
  | nil => rfl
  | cons a t ih =>
      unfold findBreaker at *
      by_cases ha : a.host = host
      · have hb : (a.host == host) = true := by simpa using ha
        simp only [List.map_cons, hb, if_true, List.find?_cons]
        have hfb : ((f a).host == host) = true := by
          rw [hf a]; exact hb
        rw [hfb]
        rfl
      · have hb : (a.host == host) = false := by simpa using ha
        simp only [List.map_cons, hb, Bool.false_eq_true, if_false,
          List.find?_cons, hb]
        exact ih

/-- Claim C8: the per-host circuit breaker follows the specified state
machine with threshold 2 and cooldown 120000 ms: a failure increments
the counter and (re)opens with opened-at now once the new count reaches
the threshold, covering both the closed-to-open and the
half-open-to-open transitions; a success in any state closes the
circuit, resets the counter and clears opened-at; reading the state of
an open circuit whose cooldown has elapsed persists the half-open
transition; is-healthy is false exactly when the effective state is
open; retry-after-seconds is the remaining cooldown rounded up to whole
seconds, or zero. -/
theorem claimC8_circuit_breaker_machine :
    (FAILURE_THRESHOLD = 2 ∧ DEFAULT_COOLDOWN_MS = 120000) ∧
    (∀ (circuit : List CircuitRow) (host : String) (now : Int) (b : CircuitRow),
      findBreaker circuit host = some b →
      findBreaker (recordFailure circuit host now) host = some
        { b with
          state := if FAILURE_THRESHOLD ≤ b.failureCount + 1 then "open"
            else "closed",
          failureCount := b.failureCount + 1,
          lastFailure := some now,
          openedAt := if FAILURE_THRESHOLD ≤ b.failureCount + 1 then some now
            else b.openedAt }) ∧
    (∀ (circuit : List CircuitRow) (host : String) (now : Int) (b : CircuitRow),
      findBreaker circuit host = some b →
      findBreaker (recordSuccess circuit host now) host = some
        { b with state := "closed", failureCount := 0, lastSuccess := some now,
                 openedAt := none, halfOpenAt := none }) ∧
    (∀ (circuit : List CircuitRow) (host : String) (now cd : Int)
      (b : CircuitRow) (t : Int),
      findBreaker circuit host = some b →
      FAILURE_THRESHOLD ≤ b.failureCount →
      b.openedAt = some t → t ≠ 0 → cd ≤ now - t →
      (getState circuit host now cd).1 = "half-open" ∧
      findBreaker (getState circuit host now cd).2 host = some
        { b with state := "half-open", halfOpenAt := some now }) ∧
    (∀ (circuit : List CircuitRow) (host : String) (now : Int) (b : CircuitRow),
      findBreaker circuit host = some b →
      b.state = "half-open" → FAILURE_THRESHOLD ≤ b.failureCount →
      findBreaker (recordFailure circuit host now) host = some
        { b with state := "open", failureCount := b.failureCount + 1,
                 lastFailure := some now, openedAt := some now }) ∧
    (∀ (circuit : List CircuitRow) (host : String) (now cd : Int),
      (isHealthy circuit host now cd).1 = false ↔
        (getState circuit host now cd).1 = "open") ∧
    (∀ (circuit : List CircuitRow) (host : String) (now cd : Int)
      (b : CircuitRow) (t : Int),
      findBreaker circuit host = some b →
      FAILURE_THRESHOLD ≤ b.failureCount →
      b.openedAt = some t → t ≠ 0 →
      (0 < cd - (now - t) →
        (retryAfterSeconds circuit host now cd - 1) * 1000 < cd - (now - t) ∧
        cd - (now - t) ≤ retryAfterSeconds circuit host now cd * 1000) ∧
      (cd - (now - t) ≤ 0 → retryAfterSeconds circuit host now cd = 0)) ∧
    (∀ (circuit : List CircuitRow) (host : String) (now cd : Int),
      findBreaker circuit host = none →
      retryAfterSeconds circuit host now cd = 0 ∧
      (getState circuit host now cd).1 = "closed") := by
  refine ⟨⟨rfl, rfl⟩, ?_, ?_, ?_, ?_, ?_, ?_, ?_⟩
  · -- recordFailure on an existing row
    intro circuit host now b hfind
    unfold recordFailure
    rw [hfind]
    dsimp only
    rw [findBreaker_map_update circuit host (fun r =>
      { r with
        state := if FAILURE_THRESHOLD ≤ b.failureCount + 1 then "open"
          else "closed",
        failureCount := b.failureCount + 1, lastFailure := some now,
        openedAt := if FAILURE_THRESHOLD ≤ b.failureCount + 1 then some now
          else b.openedAt }) (fun r => rfl), hfind]
    rfl
  · -- recordSuccess on an existing row
    intro circuit host now b hfind
    unfold recordSuccess
    have hany : circuit.any (fun r => r.host == host) = true := by
      rcases List.find?_some hfind with h
      have hmem := List.mem_of_find?_eq_some hfind
      exact List.any_eq_true.2 ⟨b, hmem, h⟩
    rw [if_pos hany]
    rw [findBreaker_map_update circuit host (fun r =>
      { r with state := "closed", failureCount := 0, lastSuccess := some now,
               openedAt := none, halfOpenAt := none }) (fun r => rfl), hfind]
    rfl
  · -- reading an open circuit past the cooldown persists half-open
    intro circuit host now cd b t hfind hcount hopen ht hcd
    unfold getState
    rw [hfind]
    dsimp only
    rw [if_neg (by omega), hopen]
    dsimp only
    rw [if_pos ⟨ht, hcd⟩]
    refine ⟨rfl, ?_⟩
    rw [findBreaker_map_update circuit host (fun r =>
      { r with state := "half-open", halfOpenAt := some now }) (fun r => rfl),
      hfind]
    simp [hopen]
  · -- a failure in half-open reopens with opened-at now
    intro circuit host now b hfind hstate hcount
    unfold recordFailure
    rw [hfind]
    dsimp only
    rw [findBreaker_map_update circuit host (fun r =>
      { r with
        state := if FAILURE_THRESHOLD ≤ b.failureCount + 1 then "open"
          else "closed",
        failureCount := b.failureCount + 1, lastFailure := some now,
        openedAt := if FAILURE_THRESHOLD ≤ b.failureCount + 1 then some now
          else b.openedAt }) (fun r => rfl), hfind]
    have h2 : FAILURE_THRESHOLD ≤ b.failureCount + 1 := by omega
    simp only [Option.map_some, Option.some.injEq, if_pos h2]
    rfl
  · -- isHealthy is false exactly on open
    intro circuit host now cd
    unfold isHealthy
    dsimp only
    constructor
    · intro h
      by_contra hne
      have : ((getState circuit host now cd).1 != "open") = true := by
        simpa using hne
      rw [this] at h
      cases h
    · intro h
      simp [h]
  · -- retryAfterSeconds characterization when a row with a nonzero
    -- opened-at is present past the threshold
    intro circuit host now cd b t hfind hcount hopen ht
    unfold retryAfterSeconds
    rw [hfind]
    dsimp only
    rw [if_neg (by omega), hopen]
    dsimp only
    rw [if_neg ht]
    constructor
    · intro hpos
      rw [if_pos hpos]
      constructor <;> omega
    · intro hneg
      rw [if_neg (by omega)]
  · -- no record at all: retry is zero and the state is closed
    intro circuit host now cd hfind
    constructor
    · unfold retryAfterSeconds
      rw [hfind]
    · unfold getState
      rw [hfind]

/-- Two failures recorded for host h at times 5 and 6 on an empty table. -/
def cbTwoFailures : List CircuitRow :=
  recordFailure (recordFailure [] "h" 5) "h" 6

def cbOpenRow : CircuitRow :=
  { host := "h", state := "open", failureCount := 2, lastFailure := some 6,
    lastSuccess := none, openedAt := some 6, halfOpenAt := none }

/-- Claim C8 witness: concrete runs of the machine.  The second failure
opens the circuit with opened-at 6; reading at 120006 (cooldown elapsed)
yields half-open; at time 1500 the retry projection brackets the
remaining 118506 ms; at time 7 the host is unhealthy; a success then
closes and resets the breaker. -/
theorem claimC8_circuit_breaker_machine_witness :
    findBreaker cbTwoFailures "h" = some cbOpenRow ∧
    (getState cbTwoFailures "h" 120006 120000).1 = "half-open" ∧
    ((retryAfterSeconds cbTwoFailures "h" 1500 120000 - 1) * 1000 <
        120000 - (1500 - 6) ∧
      120000 - (1500 - 6) ≤ retryAfterSeconds cbTwoFailures "h" 1500 120000
        * 1000) ∧
    (isHealthy cbTwoFailures "h" 7 120000).1 = false ∧
    findBreaker (recordSuccess cbTwoFailures "h" 10) "h" = some
      { cbOpenRow with state := "closed", failureCount := 0,
                       lastSuccess := some 10, openedAt := none,
                       halfOpenAt := none } := by
  have hm := claimC8_circuit_breaker_machine
  refine ⟨?_, ?_, ?_, ?_, ?_⟩
  · have h := hm.2.1 (recordFailure [] "h" 5) "h" 6
      { host := "h", state := "closed", failureCount := 1, lastFailure := some 5,
        lastSuccess := none, openedAt := none, halfOpenAt := none } (by decide)
    exact h.trans (by decide)
  · exact (hm.2.2.2.1 cbTwoFailures "h" 120006 120000 cbOpenRow 6 (by decide)
      (by decide) rfl (by decide) (by decide)).1
  · exact (hm.2.2.2.2.2.2.1 cbTwoFailures "h" 1500 120000 cbOpenRow 6
      (by decide) (by decide) rfl (by decide)).1 (by decide)
  · exact (hm.2.2.2.2.2.1 cbTwoFailures "h" 7 120000).2 (by decide)
  · have h := hm.2.2.1 cbTwoFailures "h" 10 cbOpenRow (by decide)
    exact h.trans (by decide)
